import Mathlib

/-
Verification development for the stock-display code of the rpi-rgb-led-matrix
repository (src/bindings/python/stocks.py).

Conventions of the shallow embedding:
* Python floats are modelled by exact rationals (ℚ); every concrete input used
  below is chosen so that the corresponding Python float computation is exact.
* Python round() and numpy.rint round half to even: this is pyRound.
* Python int() truncates toward zero: this is pyInt.
* A raised exception (IndexError, ValueError, ZeroDivisionError, a failed
  assert, or an uncaught library exception) is modelled by Option.none or by a
  dedicated result constructor.
* Datetimes are modelled as integer minutes since an arbitrary epoch: the code
  only ever compares formatted datetime strings for equality and adds
  whole-minute timedeltas, so this is faithful for well-formed data.
-/

namespace Stocks

attribute [local semireducible] Rat.mul Rat.add Rat.sub Rat.inv

/-- Floor of a rational: num / den with Euclidean integer division (den > 0). -/
def ratFloor (q : ℚ) : ℤ := q.num / (q.den : ℤ)

/-- Python round() / numpy.rint: round half to even. -/
def pyRound (q : ℚ) : ℤ :=
  if q - (ratFloor q : ℚ) < 1/2 then ratFloor q
  else if 1/2 < q - (ratFloor q : ℚ) then ratFloor q + 1
  else if ratFloor q % 2 = 0 then ratFloor q else ratFloor q + 1

/-- Python int() on a real number: truncation toward zero. -/
def pyInt (q : ℚ) : ℤ := if 0 ≤ q then ratFloor q else -(ratFloor (-q))

/-- Python round(x, 2): round to two decimal places (half to even). -/
def pyRound2 (q : ℚ) : ℚ := (pyRound (q * 100) : ℚ) / 100

/-- One record of an upstream time series: datetime (minutes), open, close. -/
structure Bar where
  datetime : ℤ
  openPrice : ℚ
  closePrice : ℚ
deriving DecidableEq

/-- Graph.__init__: timestamps = list(numpy.rint(numpy.linspace(0, L-1, W))).
numpy.linspace yields i*(L-1)/(W-1) for i in 0..W-1 (for W ≥ 2). -/
def gridOffsets (L W : ℕ) : List ℤ :=
  (List.range W).map (fun (i : ℕ) => pyRound ((i : ℚ) * ((L : ℚ) - 1) / ((W : ℚ) - 1)))

/-- The filter-then-index lookup of Graph.parse:
list(filter(lambda values: values['datetime'] == time, raw))[0]. -/
def matchAt (base : ℤ) (raw : List Bar) (d : ℤ) : Option Bar :=
  (raw.filter (fun v => v.datetime == base + d)).head?

/-- Whether some sample in raw carries timestamp base + d. -/
def hasMatch (base : ℤ) (raw : List Bar) (d : ℤ) : Bool :=
  (matchAt base raw d).isSome

/-- The price Graph.parse gathers at offset d: open when d = 0, else close.
The none branch is never reached on matched offsets; 0 is a junk default. -/
def sampleAt (base : ℤ) (raw : List Bar) (d : ℤ) : ℚ :=
  match matchAt base raw d with
  | some s => if d = 0 then s.openPrice else s.closePrice
  | none => 0

/-- The gathering loop of Graph.parse: walk the grid offsets in order,
append the located sample's price, break at the first missing timestamp. -/
def gatherGo (base : ℤ) (raw : List Bar) : List ℤ → List ℚ
  | [] => []
  | d :: ds =>
    match matchAt base raw d with
    | some s => (if d = 0 then s.openPrice else s.closePrice) :: gatherGo base raw ds
    | none => []

/-- Python max(list); max of the empty list raises, callers guard that. -/
def listMax : List ℚ → ℚ
  | [] => 0
  | x :: xs => xs.foldl max x

/-- Python min(list). -/
def listMin : List ℚ → ℚ
  | [] => 0
  | x :: xs => xs.foldl min x

/-- Range widening of Graph.parse: if close_price > max_val: max_val = close_price. -/
def widenMax (close max0 : ℚ) : ℚ := if max0 < close then close else max0

/-- Range widening of Graph.parse: elif close_price < min_val: min_val = close_price. -/
def widenMin (close max0 min0 : ℚ) : ℚ :=
  if max0 < close then min0 else if close < min0 then close else min0

/-- The pixel-sample list built at the end of Graph.parse:
(x, int((sample - min_val) * scale)) for x = 0, 1, .... -/
def mkData (samples : List ℚ) (minV scale : ℚ) : List (ℕ × ℤ) :=
  samples.enum.map (fun p => (p.1, pyInt ((p.2 - minV) * scale)))

/-- The scaling part of Graph.parse, after the samples are gathered.
none models the ValueError of max([]) and the ZeroDivisionError of
height/(max_val - min_val) when the range is empty. -/
def parseCore (height : ℕ) (samples : List ℚ) (close : ℚ) :
    Option (List (ℕ × ℤ) × ℤ) :=
  if samples.isEmpty then none
  else
    let maxV := widenMax close (listMax samples)
    let minV := widenMin close (listMax samples) (listMin samples)
    if maxV = minV then none
    else
      let scale := (height : ℚ) / (maxV - minV)
      some (mkData samples minV scale, pyRound ((close - minV) * scale))

/-- Graph.parse. raw is the intraday series, newest first; raw[-1] (the oldest
record) anchors the session open. Returns (data, inflection_pt), or none when
the Python code raises. -/
def parse (W L height : ℕ) (raw : List Bar) (close : ℚ) :
    Option (List (ℕ × ℤ) × ℤ) :=
  match raw.getLast? with
  | none => none
  | some last => parseCore height (gatherGo last.datetime raw (gridOffsets L W)) close


/-- Outcome of one attempt of the wrapped upstream call: a successful payload,
a twelvedata BadRequestError, or a twelvedata TwelveDataError (quota). -/
inductive Outcome where
  | ok (v : ℕ)
  | badRequest
  | quotaError
deriving DecidableEq

/-- How a call to a retry wrapper ends. ok is a returned payload, failed is
the returned False of _try_api's BadRequestError branch, exited is the
process termination after the attempt budget runs out. -/
inductive FetchResult where
  | ok (v : ℕ)
  | failed
  | exited
deriving DecidableEq

/-- The while loop of _try_api: att i is the outcome of attempt i, the fuel
argument is the remaining tries, and the last component accumulates seconds
slept. The except BadRequestError clause comes first (BadRequestError
subclasses TwelveDataError), so a bad request returns False at once; any
other TwelveDataError (quota) decrements tries and sleeps 15 seconds. -/
def tryApiGo (att : ℕ → Outcome) : ℕ → ℕ → ℕ → FetchResult × ℕ
  | 0, _, slept => (.exited, slept)
  | tries + 1, i, slept =>
    match att i with
    | .ok v => (.ok v, slept)
    | .badRequest => (.failed, slept)
    | .quotaError => tryApiGo att tries (i + 1) (slept + 15)

/-- _try_api: 5 tries, 15 second delay, BadRequestError returns False at once,
exhaustion exits the process. -/
def tryApi (att : ℕ → Outcome) : FetchResult × ℕ := tryApiGo att 5 0 0

/-- The while loop of _try_request: its only except clause catches
TwelveDataError, and BadRequestError subclasses TwelveDataError in the
twelvedata library, so a bad request is caught by the same clause as a quota
error: both decrement tries and sleep 15 seconds before retrying. -/
def tryRequestGo (att : ℕ → Outcome) : ℕ → ℕ → ℕ → FetchResult × ℕ
  | 0, _, slept => (.exited, slept)
  | tries + 1, i, slept =>
    match att i with
    | .ok v => (.ok v, slept)
    | .badRequest => tryRequestGo att tries (i + 1) (slept + 15)
    | .quotaError => tryRequestGo att tries (i + 1) (slept + 15)

/-- _try_request: 5 tries, 15 second delay, every TwelveDataError (bad
request included) retried, exhaustion exits the process. -/
def tryRequest (att : ℕ → Outcome) : FetchResult × ℕ := tryRequestGo att 5 0 0

/-- An attempt stream with quota errors on attempts 0 and 1 and success on 2. -/
def attOkAfterTwo : ℕ → Outcome := fun i => if i < 2 then .quotaError else .ok 42

/-- Python datetime.weekday() on a day index whose epoch day 0 is a Monday:
0..4 are weekdays, 5 and 6 the weekend. -/
def weekday (d : ℤ) : ℤ := d % 7

/-- The backward walk of _check_market_state:
while day.weekday() > 4 or not self._is_trading_day(day): day -= 1.
p d is the truthiness of the probe result for day d. Fuel bounds the walk;
none means the loop did not settle within the fuel. -/
def walkBack (p : ℤ → Bool) : ℕ → ℤ → Option ℤ
  | 0, _ => none
  | fuel + 1, d => if 4 < weekday d ∨ p d = false then walkBack p fuel (d - 1) else some d

/-- The trading-day resolution of _check_market_state: find the current
trading day from the anchor, then the previous trading day starting one day
earlier. -/
def checkTradingDays (p : ℤ → Bool) (fuel : ℕ) (anchor : ℤ) : Option (ℤ × ℤ) :=
  match walkBack p fuel anchor with
  | none => none
  | some t =>
    match walkBack p fuel (t - 1) with
    | none => none
    | some prev => some (t, prev)

/-- Scheduler-visible state of Market: the recurring refresh job (its interval
in minutes, none when absent), how many immediate one-shot refreshes were
queued, and the scheduled time of the next _check_market_state in minutes. -/
structure SchedState where
  intervalJob : Option ℕ
  immediateRuns : ℕ
  nextCheck : Option ℕ
deriving DecidableEq

/-- Helper for splitting a character list at a separator character. -/
def splitCharGo (sep : Char) : List Char → List Char → List (List Char)
  | [], acc => [acc.reverse]
  | c :: cs, acc =>
    if c = sep then acc.reverse :: splitCharGo sep cs []
    else splitCharGo sep cs (c :: acc)

/-- Python str.split for a one-character separator. -/
def splitChar (sep : Char) (s : String) : List String :=
  (splitCharGo sep s.data []).map (fun l => String.mk l)

/-- Python int(str) on a digit string; none models the ValueError raised on
anything else (signs and whitespace do not occur in the HH:MM:SS inputs). -/
def pyIntOfString (s : String) : Option ℕ :=
  if s.data ≠ [] ∧ s.data.all (fun c => ('0') ≤ c ∧ c ≤ ('9')) then
    some (s.data.foldl (fun n c => n * 10 + (c.toNat - ('0').toNat)) 0)
  else none

/-- The is_market_open branch of _check_market_state. now is in minutes.
ttc is the raw time_to_close string; the code splits it on colons and reads
fields 0 and 1 only: minutes = int(parts[0])*60 + int(parts[1]) + 1.
The guard not schedule.get_jobs('_update_trading_day_data') is ineffective:
apscheduler's get_jobs filters by jobstore alias, no jobstore has that alias,
so it always returns the empty list and the guard is always taken. The code
therefore calls add_job(..., id='_update_trading_day_data') unconditionally:
when no job with that id exists the interval job is installed, and when one
already exists add_job raises ConflictingIdError. none models a raised
exception (malformed string, or the ConflictingIdError): the run aborts
before _update_last_close_price and before the next status check is
scheduled (the one-shot refresh queued just before the raise is not
represented in the aborted state). update_interval is 1 minute. -/
def checkMarketStateOpen (now : ℕ) (ttc : String) (st : SchedState) : Option SchedState :=
  match splitChar (':') ttc with
  | hs :: ms :: _ =>
    match pyIntOfString hs, pyIntOfString ms with
    | some hh, some mm =>
      match st.intervalJob with
      | some _ => none
      | none =>
        some { intervalJob := some 1,
               immediateRuns := st.immediateRuns + 1,
               nextCheck := some (now + (hh * 60 + mm + 1)) }
    | _, _ => none
  | _ => none

/-- The instant the claim's words "now + time_to_close + 1 minute" denote, in
seconds, for time_to_close = hh:mm:ss. -/
def claimedNextCheckSec (now hh mm ss : ℕ) : ℕ := now * 60 + (hh * 3600 + mm * 60 + ss) + 60

/-- A Python dict assignment d[k] = v on an insertion-ordered map modelled as
an association list: overwrite in place if the key exists, else append. -/
def dictSet (m : List (String × ℚ)) (k : String) (v : ℚ) : List (String × ℚ) :=
  if m.any (fun p => p.1 == k) then m.map (fun p => if p.1 == k then (k, v) else p)
  else m ++ [(k, v)]

/-- Shape of a successful previous-day time-series response: a dict keyed by
symbol when several symbols were requested, a bare array for one symbol. -/
inductive CloseRes where
  | many (f : String → ℚ)
  | single (c : ℚ)

/-- _update_last_close_price: assert symbols nonempty, then clear
_last_close_price and repopulate it from the response. none models the failed
assert on an empty symbol list. -/
def updateLastClosePrice (symbols : List String) (res : CloseRes)
    (_pre : List (String × ℚ)) : Option (List (String × ℚ)) :=
  match symbols with
  | [] => none
  | s0 :: _ =>
    match res with
    | .many f => some (symbols.foldl (fun m s => dictSet m s (f s)) [])
    | .single c => some (dictSet [] s0 c)

/-- Market.remove_symbol: Python list.remove deletes the first occurrence and
raises ValueError when the element is absent. The Bool records whether
ValueError was raised; the list is the tracked-symbol list afterwards. -/
def removeSymbol (symbols : List String) (s : String) : Bool × List String :=
  if s ∈ symbols then (false, symbols.erase s) else (true, symbols)

/-- Market.get_current_price: round(float(data[symbol][0]['close']), 2).
none models the IndexError on an empty series. -/
def getCurrentPrice (data : List Bar) : Option ℚ :=
  data.head?.map (fun b => pyRound2 b.closePrice)

/-- Market.get_current_difference: round(current close - last close, 2). -/
def getCurrentDifference (data : List Bar) (lastClose : ℚ) : Option ℚ :=
  data.head?.map (fun b => pyRound2 (b.closePrice - lastClose))

/-- Market.get_current_percent:
round(get_current_difference / get_last_close_price * 100, 2).
none models the ZeroDivisionError when the previous close is zero. -/
def getCurrentPercent (data : List Bar) (lastClose : ℚ) : Option ℚ :=
  if lastClose = 0 then none
  else (getCurrentDifference data lastClose).map (fun d => pyRound2 (d / lastClose * 100))


lemma gatherGo_eq_takeWhile (base : ℤ) (raw : List Bar) :
    ∀ grid : List ℤ,
      gatherGo base raw grid
        = (grid.takeWhile (hasMatch base raw)).map (sampleAt base raw) := by
  intro grid
  induction grid with
  | nil => rfl
  | cons d ds ih =>
    rw [gatherGo, List.takeWhile]
    cases hm : matchAt base raw d with
    | none => simp [hasMatch, hm]
    | some s => simp [hasMatch, hm, sampleAt, ih]

lemma gatherGo_length_le (base : ℤ) (raw : List Bar) (grid : List ℤ) :
    (gatherGo base raw grid).length ≤ grid.length := by
  rw [gatherGo_eq_takeWhile, List.length_map]
  exact (List.takeWhile_sublist (hasMatch base raw)).length_le

lemma le_foldl_max : ∀ (l : List ℚ) (a : ℚ), a ≤ l.foldl max a := by
  intro l
  induction l with
  | nil => intro a; exact le_refl a
  | cons b l ih => intro a; exact le_trans (le_max_left a b) (ih (max a b))

lemma foldl_min_le : ∀ (l : List ℚ) (a : ℚ), l.foldl min a ≤ a := by
  intro l
  induction l with
  | nil => intro a; exact le_refl a
  | cons b l ih => intro a; exact le_trans (ih (min a b)) (min_le_left a b)

lemma listMin_le_listMax (samples : List ℚ) (h : samples ≠ []) :
    listMin samples ≤ listMax samples := by
  cases samples with
  | nil => exact absurd rfl h
  | cons x xs =>
    simp only [listMin, listMax]
    exact le_trans (foldl_min_le xs x) (le_foldl_max xs x)

lemma widenMax_eq_max (c M : ℚ) : widenMax c M = max c M := by
  unfold widenMax
  rcases lt_or_le M c with h | h
  · rw [if_pos h, max_eq_left (le_of_lt h)]
  · rw [if_neg (not_lt_of_le h), max_eq_right h]

lemma widenMin_eq_min (c M m : ℚ) (hm : m ≤ M) : widenMin c M m = min c m := by
  unfold widenMin
  rcases lt_or_le M c with h | h
  · rw [if_pos h, min_eq_right (le_trans hm (le_of_lt h))]
  · rw [if_neg (not_lt_of_le h)]
    rcases lt_or_le c m with h2 | h2
    · rw [if_pos h2, min_eq_left (le_of_lt h2)]
    · rw [if_neg (not_lt_of_le h2), min_eq_right h2]

lemma parseCore_inv (h : ℕ) (samples : List ℚ) (close : ℚ)
    (data : List (ℕ × ℤ)) (infl : ℤ)
    (hp : parseCore h samples close = some (data, infl)) :
    samples ≠ [] ∧
    widenMax close (listMax samples) ≠ widenMin close (listMax samples) (listMin samples) ∧
    data = mkData samples (widenMin close (listMax samples) (listMin samples))
      ((h : ℚ) / (widenMax close (listMax samples)
        - widenMin close (listMax samples) (listMin samples))) ∧
    infl = pyRound ((close - widenMin close (listMax samples) (listMin samples))
      * ((h : ℚ) / (widenMax close (listMax samples)
        - widenMin close (listMax samples) (listMin samples)))) := by
  unfold parseCore at hp
  by_cases he : samples.isEmpty
  · rw [if_pos he] at hp; exact absurd hp (by simp)
  · rw [if_neg he] at hp
    simp only at hp
    by_cases hz : widenMax close (listMax samples)
        = widenMin close (listMax samples) (listMin samples)
    · rw [if_pos hz] at hp; exact absurd hp (by simp)
    · rw [if_neg hz] at hp
      refine ⟨by simpa using he, hz, ?_, ?_⟩
      · exact (Prod.mk.injEq _ _ _ _).mp (Option.some.inj hp) |>.1.symm
      · exact (Prod.mk.injEq _ _ _ _).mp (Option.some.inj hp) |>.2.symm

lemma mkData_map_fst (samples : List ℚ) (minV scale : ℚ) :
    (mkData samples minV scale).map Prod.fst = List.range samples.length := by
  unfold mkData
  rw [List.map_map]
  exact List.enum_map_fst samples

lemma mkData_length (samples : List ℚ) (minV scale : ℚ) :
    (mkData samples minV scale).length = samples.length := by
  unfold mkData
  rw [List.length_map, List.enum_length]

lemma walkBack_spec (p : ℤ → Bool) :
    ∀ (fuel : ℕ) (d r : ℤ), walkBack p fuel d = some r →
      r ≤ d ∧ weekday r ≤ 4 ∧ p r = true := by
  intro fuel
  induction fuel with
  | zero => intro d r h; exact absurd h (by simp [walkBack])
  | succ n ih =>
    intro d r h
    rw [walkBack] at h
    split at h
    · rcases ih (d - 1) r h with ⟨h1, h2, h3⟩
      exact ⟨by omega, h2, h3⟩
    · rename_i hcond
      push_neg at hcond
      cases h
      exact ⟨le_refl d, hcond.1, by simpa using hcond.2⟩

lemma dictSet_fresh (m : List (String × ℚ)) (k : String) (v : ℚ)
    (h : ∀ p ∈ m, p.1 ≠ k) : dictSet m k v = m ++ [(k, v)] := by
  unfold dictSet
  rw [if_neg]
  simp only [List.any_eq_true, beq_iff_eq, not_exists]
  intro p hp
  exact h p hp.1 hp.2

lemma foldl_dictSet_fresh (f : String → ℚ) :
    ∀ (symbols : List String) (acc : List (String × ℚ)),
      symbols.Nodup → (∀ s ∈ symbols, ∀ p ∈ acc, p.1 ≠ s) →
      symbols.foldl (fun m s => dictSet m s (f s)) acc
        = acc ++ symbols.map (fun s => (s, f s)) := by
  intro symbols
  induction symbols with
  | nil => intro acc _ _; simp
  | cons s ss ih =>
    intro acc hnd hfresh
    rw [List.foldl_cons, dictSet_fresh acc s (f s) (fun p hp => hfresh s (by simp) p hp)]
    rw [ih (acc ++ [(s, f s)]) (List.nodup_cons.mp hnd).2]
    · simp
    · intro t ht q hq
      rcases List.mem_append.mp hq with hq | hq
      · exact hfresh t (by simp [ht]) q hq
      · have hqe : q = (s, f s) := by simpa using hq
        rw [hqe]
        intro hst
        have hst2 : s = t := hst
        exact (List.nodup_cons.mp hnd).1 (hst2.symm ▸ ht)

lemma tryApiGo_ok (att : ℕ → Outcome) (v : ℕ) :
    ∀ (k t i s : ℕ), k < t → (∀ j, j < k → att (i + j) = .quotaError) →
      att (i + k) = .ok v → tryApiGo att t i s = (.ok v, s + 15 * k) := by
  intro k
  induction k with
  | zero =>
    intro t i s ht _ hok
    cases t with
    | zero => omega
    | succ t => simp only [tryApiGo, Nat.add_zero] at hok ⊢; rw [hok]; simp
  | succ k ih =>
    intro t i s ht hq hok
    cases t with
    | zero => omega
    | succ t =>
      have h0 : att i = .quotaError := by simpa using hq 0 (by omega)
      simp only [tryApiGo, h0]
      have hq2 : ∀ j, j < k → att (i + 1 + j) = .quotaError := by
        intro j hj
        have e : i + 1 + j = i + (j + 1) := by omega
        rw [e]
        exact hq (j + 1) (by omega)
      have hok2 : att (i + 1 + k) = .ok v := by
        have e : i + 1 + k = i + (k + 1) := by omega
        rw [e]; exact hok
      rw [ih t (i + 1) (s + 15) (by omega) hq2 hok2]
      have e2 : s + 15 + 15 * k = s + 15 * (k + 1) := by omega
      rw [e2]

lemma tryApiGo_bad (att : ℕ → Outcome) :
    ∀ (k t i s : ℕ), k < t → (∀ j, j < k → att (i + j) = .quotaError) →
      att (i + k) = .badRequest → tryApiGo att t i s = (.failed, s + 15 * k) := by
  intro k
  induction k with
  | zero =>
    intro t i s ht _ hb
    cases t with
    | zero => omega
    | succ t => simp only [tryApiGo, Nat.add_zero] at hb ⊢; rw [hb]; simp
  | succ k ih =>
    intro t i s ht hq hb
    cases t with
    | zero => omega
    | succ t =>
      have h0 : att i = .quotaError := by simpa using hq 0 (by omega)
      simp only [tryApiGo, h0]
      have hq2 : ∀ j, j < k → att (i + 1 + j) = .quotaError := by
        intro j hj
        have e : i + 1 + j = i + (j + 1) := by omega
        rw [e]
        exact hq (j + 1) (by omega)
      have hb2 : att (i + 1 + k) = .badRequest := by
        have e : i + 1 + k = i + (k + 1) := by omega
        rw [e]; exact hb
      rw [ih t (i + 1) (s + 15) (by omega) hq2 hb2]
      have e2 : s + 15 + 15 * k = s + 15 * (k + 1) := by omega
      rw [e2]

lemma tryApiGo_exhaust (att : ℕ → Outcome) :
    ∀ (t i s : ℕ), (∀ j, j < t → att (i + j) = .quotaError) →
      tryApiGo att t i s = (.exited, s + 15 * t) := by
  intro t
  induction t with
  | zero => intro i s _; simp [tryApiGo]
  | succ t ih =>
    intro i s hq
    have h0 : att i = .quotaError := by simpa using hq 0 (by omega)
    simp only [tryApiGo, h0]
    have hq2 : ∀ j, j < t → att (i + 1 + j) = .quotaError := by
      intro j hj
      have e : i + 1 + j = i + (j + 1) := by omega
      rw [e]
      exact hq (j + 1) (by omega)
    rw [ih (i + 1) (s + 15) hq2]
    have e2 : s + 15 + 15 * t = s + 15 * (t + 1) := by omega
    rw [e2]

lemma tryRequestGo_ok (att : ℕ → Outcome) (v : ℕ) :
    ∀ (k t i s : ℕ), k < t → (∀ j, j < k → att (i + j) = .quotaError) →
      att (i + k) = .ok v → tryRequestGo att t i s = (.ok v, s + 15 * k) := by
  intro k
  induction k with
  | zero =>
    intro t i s ht _ hok
    cases t with
    | zero => omega
    | succ t => simp only [tryRequestGo, Nat.add_zero] at hok ⊢; rw [hok]; simp
  | succ k ih =>
    intro t i s ht hq hok
    cases t with
    | zero => omega
    | succ t =>
      have h0 : att i = .quotaError := by simpa using hq 0 (by omega)
      simp only [tryRequestGo, h0]
      have hq2 : ∀ j, j < k → att (i + 1 + j) = .quotaError := by
        intro j hj
        have e : i + 1 + j = i + (j + 1) := by omega
        rw [e]
        exact hq (j + 1) (by omega)
      have hok2 : att (i + 1 + k) = .ok v := by
        have e : i + 1 + k = i + (k + 1) := by omega
        rw [e]; exact hok
      rw [ih t (i + 1) (s + 15) (by omega) hq2 hok2]
      have e2 : s + 15 + 15 * k = s + 15 * (k + 1) := by omega
      rw [e2]

lemma tryRequestGo_exhaust (att : ℕ → Outcome) :
    ∀ (t i s : ℕ),
      (∀ j, j < t → att (i + j) = .badRequest ∨ att (i + j) = .quotaError) →
      tryRequestGo att t i s = (.exited, s + 15 * t) := by
  intro t
  induction t with
  | zero => intro i s _; simp [tryRequestGo]
  | succ t ih =>
    intro i s hq
    have h0 := hq 0 (by omega)
    have hq2 : ∀ j, j < t →
        att (i + 1 + j) = .badRequest ∨ att (i + 1 + j) = .quotaError := by
      intro j hj
      have e : i + 1 + j = i + (j + 1) := by omega
      rw [e]
      exact hq (j + 1) (by omega)
    have e2 : s + 15 + 15 * t = s + 15 * (t + 1) := by omega
    rcases h0 with h | h
    · have hb : att i = .badRequest := by simpa using h
      simp only [tryRequestGo, hb]
      rw [ih (i + 1) (s + 15) hq2, e2]
    · have hqe : att i = .quotaError := by simpa using h
      simp only [tryRequestGo, hqe]
      rw [ih (i + 1) (s + 15) hq2, e2]

/-- C1: with a raw series whose every gathered sample equals the previous
close (here the single sample 100 with close 100), Graph.parse does not emit
zero heights: it reaches the unguarded scale = 17 / (max_val - min_val) with
max_val = min_val and raises ZeroDivisionError, modelled as none. The first
conjunct certifies that the gathered samples are exactly [100], so the
claim's precondition holds at this input. -/
theorem parse_zero_range_divzero :
    gatherGo 570 [⟨570, 100, 100⟩] (gridOffsets 390 64) = [100] ∧
    parse 64 390 17 [⟨570, 100, 100⟩] 100 = none := by decide

/-- C2: the sampling loop walks the pixel-grid offsets in order and stops at
the first offset whose timestamp has no matching sample — the gathered list
is exactly the map over the longest fully-matched grid prefix, so later
offsets are never consulted. Concretely, a series matching grid offsets
0, 1, 2 (minutes 0, 6, 12) with a gap at grid offset 3 (minute 19) yields
exactly 3 PixelSamples with x-coordinates 0, 1, 2. -/
theorem sampling_stops_at_first_gap :
    (∀ (base : ℤ) (raw : List Bar) (grid : List ℤ),
      gatherGo base raw grid
        = (grid.takeWhile (hasMatch base raw)).map (sampleAt base raw)) ∧
    hasMatch 570 [⟨582, 133, 134⟩, ⟨576, 102, 103⟩, ⟨570, 100, 101⟩] 19 = false ∧
    (parse 64 390 17 [⟨582, 133, 134⟩, ⟨576, 102, 103⟩, ⟨570, 100, 101⟩] 100).map
      (fun r => r.1.map Prod.fst) = some [0, 1, 2] :=
  ⟨fun base raw grid => gatherGo_eq_takeWhile base raw grid, by decide, by decide⟩

/-- C3 counterexample: gathered samples 100, 103, 134 with close 100 give
scale = 17/34; the code emits pixel height int(1.5) = 1 at x = 1, while the
claim's round((sample - min_val) * scale) = round(1.5) = 2. -/
theorem parse_height_rounding_cex :
    parse 64 390 17 [⟨582, 133, 134⟩, ⟨576, 102, 103⟩, ⟨570, 100, 101⟩] 100
      = some ([(0, 0), (1, 1), (2, 17)], 0) ∧
    pyRound (((103 : ℚ) - 100) * (17 / ((134 : ℚ) - 100))) = 2 ∧ (1 : ℤ) ≠ 2 := by
  refine ⟨by decide, by decide, by decide⟩

/-- C3 (amended): when parse succeeds, with samples the gathered prefix,
min_val/max_val the gathered range widened to include the previous close,
and scale = height / (max_val - min_val): inflection_pt =
round((close - min_val) * scale) (Python banker's rounding), while each
emitted PixelSample's height is int((sample - min_val) * scale) — truncation
toward zero, not rounding. -/
theorem parse_scale_formulas (W L h : ℕ) (raw : List Bar) (close : ℚ)
    (data : List (ℕ × ℤ)) (infl : ℤ) (last : Bar)
    (hlast : raw.getLast? = some last)
    (hp : parse W L h raw close = some (data, infl)) :
    ∃ samples minV maxV scale,
      samples = ((gridOffsets L W).takeWhile (hasMatch last.datetime raw)).map
        (sampleAt last.datetime raw) ∧
      minV = min close (listMin samples) ∧
      maxV = max close (listMax samples) ∧
      scale = (h : ℚ) / (maxV - minV) ∧
      minV < maxV ∧
      infl = pyRound ((close - minV) * scale) ∧
      data = samples.enum.map (fun p => (p.1, pyInt ((p.2 - minV) * scale))) := by
  unfold parse at hp
  rw [hlast] at hp
  obtain ⟨hne, hneq, hdata, hinfl⟩ :=
    parseCore_inv h (gatherGo last.datetime raw (gridOffsets L W)) close data infl hp
  have hmm := listMin_le_listMax _ hne
  have hwmax := widenMax_eq_max close (listMax (gatherGo last.datetime raw (gridOffsets L W)))
  have hwmin := widenMin_eq_min close (listMax (gatherGo last.datetime raw (gridOffsets L W)))
    (listMin (gatherGo last.datetime raw (gridOffsets L W))) hmm
  refine ⟨gatherGo last.datetime raw (gridOffsets L W),
    min close (listMin (gatherGo last.datetime raw (gridOffsets L W))),
    max close (listMax (gatherGo last.datetime raw (gridOffsets L W))),
    _, gatherGo_eq_takeWhile _ _ _, rfl, rfl, rfl, ?_, ?_, ?_⟩
  · refine lt_of_le_of_ne (le_trans (min_le_left _ _) (le_max_left _ _)) ?_
    rw [← hwmax, ← hwmin]
    exact fun e => hneq e.symm
  · rw [hinfl, hwmax, hwmin]
  · rw [hdata, ← hwmax, ← hwmin]; rfl

/-- Witness for parse_scale_formulas at the concrete three-sample series. -/
theorem parse_scale_formulas_witness :
    (([⟨582, 133, 134⟩, ⟨576, 102, 103⟩, ⟨570, 100, 101⟩] : List Bar).getLast?
        = some ⟨570, 100, 101⟩ ∧
      parse 64 390 17 [⟨582, 133, 134⟩, ⟨576, 102, 103⟩, ⟨570, 100, 101⟩] 100
        = some ([(0, 0), (1, 1), (2, 17)], 0)) ∧
    ∃ samples minV maxV scale,
      samples = ((gridOffsets 390 64).takeWhile
        (hasMatch 570 [⟨582, 133, 134⟩, ⟨576, 102, 103⟩, ⟨570, 100, 101⟩])).map
        (sampleAt 570 [⟨582, 133, 134⟩, ⟨576, 102, 103⟩, ⟨570, 100, 101⟩]) ∧
      minV = min 100 (listMin samples) ∧
      maxV = max 100 (listMax samples) ∧
      scale = (17 : ℚ) / (maxV - minV) ∧
      minV < maxV ∧
      (0 : ℤ) = pyRound ((100 - minV) * scale) ∧
      ([(0, 0), (1, 1), (2, 17)] : List (ℕ × ℤ))
        = samples.enum.map (fun p => (p.1, pyInt ((p.2 - minV) * scale))) :=
  ⟨⟨by decide, by decide⟩,
    parse_scale_formulas 64 390 17 [⟨582, 133, 134⟩, ⟨576, 102, 103⟩, ⟨570, 100, 101⟩]
      100 [(0, 0), (1, 1), (2, 17)] 0 ⟨570, 100, 101⟩ (by decide) (by decide)⟩

/-- C4 counterexample: in _try_request a malformed-request (BadRequestError)
outcome is caught by the except TwelveDataError clause — BadRequestError
subclasses TwelveDataError — so it is retried exactly like a quota error:
five attempts with 15 seconds slept after each, then the process exits.
It is retried, and the call never returns the immediate failure result
(False) that the claim promises: exited differs from failed and 75 seconds
of retry sleep differ from an immediate 0. -/
theorem tryRequest_badRequest_cex :
    tryRequest (fun _ => .badRequest) = (.exited, 75) ∧
    FetchResult.exited ≠ FetchResult.failed ∧ (75 : ℕ) ≠ 0 := by
  refine ⟨by decide, by decide, by decide⟩

/-- C4 (amended): both wrappers attempt at most 5 tries and sleep a fixed 15
seconds after each caught error; a success after k < 5 quota errors returns
the payload with 15k seconds slept; exhausting all 5 attempts terminates the
process (after 75 seconds slept). Only in _try_api is a malformed-request
error never retried, yielding the immediate failure result False; in
_try_request BadRequestError subclasses TwelveDataError and is caught by its
sole handler, so a malformed-request error is retried like a quota error and,
persisting, terminates the process after the 5-attempt budget. -/
theorem retry_policy (att : ℕ → Outcome) (k v : ℕ) (hk : k < 5)
    (hq : ∀ j, j < k → att j = .quotaError) :
    (att k = .ok v →
      tryApi att = (.ok v, 15 * k) ∧ tryRequest att = (.ok v, 15 * k)) ∧
    (att k = .badRequest → tryApi att = (.failed, 15 * k)) ∧
    ((∀ j, j < 5 → att j = .quotaError) →
      tryApi att = (.exited, 75) ∧ tryRequest att = (.exited, 75)) ∧
    ((∀ j, j < 5 → att j = .badRequest ∨ att j = .quotaError) →
      tryRequest att = (.exited, 75)) := by
  have hq0 : ∀ j, j < k → att (0 + j) = .quotaError := by
    intro j hj; simpa using hq j hj
  refine ⟨fun hok => ⟨?_, ?_⟩, fun hb => ?_, fun hq5 => ⟨?_, ?_⟩, fun hm5 => ?_⟩
  · simpa [tryApi] using tryApiGo_ok att v k 5 0 0 hk hq0 (by simpa using hok)
  · simpa [tryRequest] using tryRequestGo_ok att v k 5 0 0 hk hq0 (by simpa using hok)
  · simpa [tryApi] using tryApiGo_bad att k 5 0 0 hk hq0 (by simpa using hb)
  · simpa [tryApi] using tryApiGo_exhaust att 5 0 0 (by intro j hj; simpa using hq5 j hj)
  · simpa [tryRequest] using tryRequestGo_exhaust att 5 0 0
      (by intro j hj; exact Or.inr (by simpa using hq5 j hj))
  · simpa [tryRequest] using tryRequestGo_exhaust att 5 0 0
      (by intro j hj; simpa using hm5 j hj)

/-- Witness for retry_policy: two quota errors then success returns the
payload after two 15-second sleeps. -/
theorem retry_policy_witness :
    (2 < 5 ∧ attOkAfterTwo 2 = .ok 42) ∧
    tryApi attOkAfterTwo = (.ok 42, 15 * 2) ∧
    tryRequest attOkAfterTwo = (.ok 42, 15 * 2) :=
  ⟨⟨by decide, by decide⟩,
    (retry_policy attOkAfterTwo 2 42 (by decide)
      (fun j hj => by simp [attOkAfterTwo, hj])).1 (by decide)⟩

/-- C5: whenever the trading-calendar walk of _check_market_state returns a
pair of days, the previous trading day is strictly earlier than the current
trading day, both are weekdays (weekday index ≤ 4), and the trading-day
probe returned a truthy (non-empty) result for both. -/
theorem checkTradingDays_invariant (p : ℤ → Bool) (fuel : ℕ) (anchor t prev : ℤ)
    (h : checkTradingDays p fuel anchor = some (t, prev)) :
    prev < t ∧ weekday t ≤ 4 ∧ weekday prev ≤ 4 ∧ p t = true ∧ p prev = true := by
  unfold checkTradingDays at h
  cases h1 : walkBack p fuel anchor with
  | none => rw [h1] at h; exact absurd h (by simp)
  | some t0 =>
    simp only [h1] at h
    cases h2 : walkBack p fuel (t0 - 1) with
    | none => simp only [h2] at h; exact absurd h (by simp)
    | some p0 =>
      simp only [h2] at h
      have hpair := Option.some.inj h
      have ht0 : t0 = t := congrArg Prod.fst hpair
      have hp0 : p0 = prev := congrArg Prod.snd hpair
      subst ht0
      subst hp0
      rcases walkBack_spec p fuel anchor t0 h1 with ⟨_, hw1, hp1⟩
      rcases walkBack_spec p fuel (t0 - 1) p0 h2 with ⟨hle, hw2, hp2⟩
      exact ⟨by omega, hw1, hw2, hp1, hp2⟩

/-- Witness for checkTradingDays_invariant: a probe that rejects only day 3,
anchored at day 4 (a Friday for the Monday-0 epoch), resolves current day 4
and previous day 2. -/
theorem checkTradingDays_invariant_witness :
    (checkTradingDays (fun d => d != 3) 10 4 = some (4, 2)) ∧
    ((2 : ℤ) < 4 ∧ weekday 4 ≤ 4 ∧ weekday 2 ≤ 4 ∧
      (fun d : ℤ => d != 3) 4 = true ∧ (fun d : ℤ => d != 3) 2 = true) :=
  ⟨by decide, checkTradingDays_invariant (fun d => d != 3) 10 4 4 2 (by decide)⟩

/-- C6 counterexample: two failures of the claim as stated. First, at 15:00
(minute 900) with time_to_close 00:00:59 the code schedules the next status
check at minute 901 = 54060 seconds, but now + time_to_close + 1 minute is
54119 seconds: the seconds field of time_to_close is dropped. Second, when
the recurring refresh job already exists, the open branch neither keeps it
and schedules the next check nor skips the install: its presence guard
always sees the empty list (get_jobs filters by jobstore alias, not job id),
so add_job raises ConflictingIdError and no next status check is scheduled
at all, modelled as none. -/
theorem checkMarketStateOpen_cex :
    ((checkMarketStateOpen 900 ("00:00:59") ⟨none, 0, none⟩).map (fun st => st.nextCheck)
      = some (some 901) ∧ 901 * 60 ≠ claimedNextCheckSec 900 0 0 59) ∧
    checkMarketStateOpen 900 ("01:00:00") ⟨some 1, 5, none⟩ = none := by
  refine ⟨⟨by decide, by decide⟩, by decide⟩

/-- C6 (amended): when the market-status poll reports the market open with
time_to_close = HH:MM:SS and no job with id _update_trading_day_data exists,
the next status check is scheduled at now + (HH*60 + MM + 1) minutes (the
seconds field is ignored) and the recurring 1-minute intraday-refresh job is
installed; when that job already exists, the presence guard is ineffective
(get_jobs filters by jobstore alias and always returns the empty list), so
the unconditional add_job raises ConflictingIdError and the run aborts with
no next status check scheduled. -/
theorem checkMarketStateOpen_spec (now hh mm : ℕ) (hs ms ss : String)
    (ttc : String) (st : SchedState)
    (hsplit : splitChar (':') ttc = [hs, ms, ss])
    (hhv : pyIntOfString hs = some hh) (hmv : pyIntOfString ms = some mm) :
    (st.intervalJob = none →
      checkMarketStateOpen now ttc st
        = some { intervalJob := some 1,
                 immediateRuns := st.immediateRuns + 1,
                 nextCheck := some (now + (hh * 60 + mm + 1)) }) ∧
    (st.intervalJob.isSome → checkMarketStateOpen now ttc st = none) := by
  unfold checkMarketStateOpen
  simp only [hsplit, hhv, hmv]
  constructor
  · intro hnone
    rw [hnone]
  · intro hsome
    cases hj : st.intervalJob with
    | none => rw [hj] at hsome; simp at hsome
    | some j => rfl

/-- Witness for checkMarketStateOpen_spec: is_market_open with time_to_close
01:00:00 at 15:00 (minute 900), with no recurring job present, schedules the
next check at minute 961 (16:01) and installs the 1-minute recurring refresh
job. -/
theorem checkMarketStateOpen_spec_witness :
    (splitChar (':') ("01:00:00") = [("01"), ("00"), ("00")] ∧
      pyIntOfString ("01") = some 1 ∧ pyIntOfString ("00") = some 0 ∧
      (⟨none, 0, none⟩ : SchedState).intervalJob = none) ∧
    checkMarketStateOpen 900 ("01:00:00") ⟨none, 0, none⟩
      = some ⟨some 1, 1, some 961⟩ := by
  refine ⟨⟨by decide, by decide, by decide, rfl⟩, ?_⟩
  rw [(checkMarketStateOpen_spec 900 1 0 ("01") ("00") ("00") ("01:00:00")
    ⟨none, 0, none⟩ (by decide) (by decide) (by decide)).1 rfl]

/-- C7 counterexample: with current close 101 and previous close 100 the code
returns 1 (one percent), while the claim's words — difference divided by the
previous close, rounded to two decimals, with no factor of 100 — denote
0.01. -/
theorem getCurrentPercent_cex :
    getCurrentPercent [⟨0, 0, 101⟩] 100 = some 1 ∧
    pyRound2 (pyRound2 ((101 : ℚ) - 100) / 100) = 1 / 100 ∧
    (1 : ℚ) ≠ 1 / 100 := by
  refine ⟨by decide, by decide, by decide⟩

/-- C7 (amended): for a symbol with data (nonempty intraday series) and a
non-zero previous close, get_current_percent returns the two-decimal-rounded
current difference, divided by the previous close, multiplied by 100, rounded
to two decimal places. -/
theorem getCurrentPercent_formula (data : List Bar) (lastClose : ℚ) (b : Bar)
    (hd : data.head? = some b) (hz : lastClose ≠ 0) :
    getCurrentPercent data lastClose
      = some (pyRound2 (pyRound2 (b.closePrice - lastClose) / lastClose * 100)) := by
  unfold getCurrentPercent getCurrentDifference
  rw [if_neg hz, hd]
  rfl

/-- Witness for getCurrentPercent_formula at current close 101, previous
close 100. -/
theorem getCurrentPercent_formula_witness :
    (([⟨0, 0, 101⟩] : List Bar).head? = some ⟨0, 0, 101⟩ ∧ (100 : ℚ) ≠ 0) ∧
    getCurrentPercent [⟨0, 0, 101⟩] 100
      = some (pyRound2 (pyRound2 ((101 : ℚ) - 100) / 100 * 100)) :=
  ⟨⟨by decide, by decide⟩,
    getCurrentPercent_formula [⟨0, 0, 101⟩] 100 ⟨0, 0, 101⟩ (by decide) (by decide)⟩

/-- C8: for every configured pixel width W ≥ 2, whenever Graph.parse
succeeds it emits at most W PixelSamples and their x-coordinates are exactly
0, 1, ..., count-1 — a strictly increasing prefix of 0..W-1. -/
theorem parse_xcoords_shape (W L h : ℕ) (raw : List Bar) (close : ℚ)
    (data : List (ℕ × ℤ)) (infl : ℤ) (_hW : 2 ≤ W)
    (hp : parse W L h raw close = some (data, infl)) :
    data.length ≤ W ∧ data.map Prod.fst = List.range data.length := by
  unfold parse at hp
  cases hlast : raw.getLast? with
  | none => rw [hlast] at hp; exact absurd hp (by simp)
  | some last =>
    simp only [hlast] at hp
    obtain ⟨hne, hneq, hdata, hinfl⟩ :=
      parseCore_inv h (gatherGo last.datetime raw (gridOffsets L W)) close data infl hp
    constructor
    · rw [hdata, mkData_length]
      have hle := gatherGo_length_le last.datetime raw (gridOffsets L W)
      have hgl : (gridOffsets L W).length = W := by
        rw [gridOffsets, List.length_map, List.length_range]
      omega
    · rw [hdata, mkData_map_fst, mkData_length]

/-- Witness for parse_xcoords_shape at the concrete three-sample series with
W = 64. -/
theorem parse_xcoords_shape_witness :
    (2 ≤ 64 ∧
      parse 64 390 17 [⟨582, 133, 134⟩, ⟨576, 102, 103⟩, ⟨570, 100, 101⟩] 100
        = some ([(0, 0), (1, 1), (2, 17)], 0)) ∧
    ([(0, 0), (1, 1), (2, 17)] : List (ℕ × ℤ)).length ≤ 64 ∧
    ([(0, 0), (1, 1), (2, 17)] : List (ℕ × ℤ)).map Prod.fst
      = List.range ([(0, 0), (1, 1), (2, 17)] : List (ℕ × ℤ)).length :=
  ⟨⟨by decide, by decide⟩,
    parse_xcoords_shape 64 390 17 [⟨582, 133, 134⟩, ⟨576, 102, 103⟩, ⟨570, 100, 101⟩]
      100 [(0, 0), (1, 1), (2, 17)] 0 (by decide) (by decide)⟩

/-- C9: after a successful previous-day query the close-record map is
replaced wholesale: for a nonempty duplicate-free tracked-symbol list the
result holds exactly one entry per tracked symbol, with the fetched value,
in tracking order; the result does not depend on the map's prior state; and
the single-symbol response shape likewise yields exactly the one tracked
entry. -/
theorem updateLastClose_replaces (symbols : List String) (f : String → ℚ)
    (pre : List (String × ℚ)) (h0 : symbols ≠ []) (hnd : symbols.Nodup) :
    updateLastClosePrice symbols (.many f) pre = some (symbols.map fun s => (s, f s)) ∧
    (∀ pre', updateLastClosePrice symbols (.many f) pre
      = updateLastClosePrice symbols (.many f) pre') ∧
    (∀ (s0 : String) (c : ℚ) (pre' : List (String × ℚ)),
      updateLastClosePrice [s0] (.single c) pre' = some [(s0, c)]) := by
  refine ⟨?_, fun pre' => ?_, fun s0 c pre' => ?_⟩
  · cases symbols with
    | nil => exact absurd rfl h0
    | cons s ss =>
      show some ((s :: ss).foldl (fun m s => dictSet m s (f s)) [])
        = some ((s :: ss).map fun s => (s, f s))
      rw [foldl_dictSet_fresh f (s :: ss) [] hnd
        (fun u hu q hq => absurd hq (List.not_mem_nil q))]
      simp
  · cases symbols with
    | nil => exact absurd rfl h0
    | cons s ss => rfl
  · unfold updateLastClosePrice
    simp [dictSet]

/-- Witness for updateLastClose_replaces: two tracked symbols, a response
mapping, and a stale prior entry that does not survive. -/
theorem updateLastClose_replaces_witness :
    ((["AAPL", "NVDA"] : List String) ≠ [] ∧ (["AAPL", "NVDA"] : List String).Nodup) ∧
    updateLastClosePrice ["AAPL", "NVDA"]
        (.many fun s => if s = ("AAPL") then 5 else 7) [("OLD", 1)]
      = some ((["AAPL", "NVDA"] : List String).map
          fun s => (s, if s = ("AAPL") then (5 : ℚ) else 7)) :=
  ⟨⟨by decide, by decide⟩,
    (updateLastClose_replaces ["AAPL", "NVDA"]
      (fun s => if s = ("AAPL") then 5 else 7) [("OLD", 1)]
      (by decide) (by decide)).1⟩

/-- C10: Market.remove_symbol with a symbol that is not currently tracked
raises ValueError (Python list.remove) and leaves the tracked-symbol list
unchanged. -/
theorem removeSymbol_absent_raises (symbols : List String) (s : String)
    (h : s ∉ symbols) : removeSymbol symbols s = (true, symbols) := by
  unfold removeSymbol
  rw [if_neg h]

/-- Witness for removeSymbol_absent_raises: removing NVDA from a list
tracking only AAPL raises and changes nothing. -/
theorem removeSymbol_absent_raises_witness :
    (("NVDA") ∉ (["AAPL"] : List String)) ∧
    removeSymbol ["AAPL"] ("NVDA") = (true, ["AAPL"]) :=
  ⟨by decide, removeSymbol_absent_raises ["AAPL"] ("NVDA") (by decide)⟩

end Stocks
